import Mathlib

/-!
# Palantir core: shallow embedding and verification

Shallow embedding of the palantir peer-networking core (length-prefixed
framed codec, timeout registry, channel run-loop, handshake state machine,
accept loop and peer table) translated from the Rust sources, together with
theorems settling the specification claims.

Bytes are modelled as `Nat` (values < 256 where it matters), byte streams as
`List Nat` where the end of the list is the end (FIN) of the stream, and
machine integers as `Nat` with explicit bounds. Definitions come first, all
theorems after them.
-/

namespace Palantir

/-! ## Error types (src/error.rs) -/

/-- Mirror of `TransmissionError` from src/error.rs. -/
inductive TransmissionError where
  | NotConnected : TransmissionError
  | PeerDisconnected (code : Nat) : TransmissionError
  | TransportError : TransmissionError
  | TransmissionEndedEarly (expected_size received_size : Nat) (reason : String) :
      TransmissionError
  | Refused : TransmissionError
  deriving DecidableEq, Repr

/-- Mirror of `FramedError` from src/error.rs. -/
inductive FramedError where
  | InvalidEncoding (packet : List Nat) : FramedError
  | ExceedsSizeLimit (packet_size size_limit : Nat) (reason : String) : FramedError
  | TransmissionError (e : TransmissionError) : FramedError
  deriving DecidableEq, Repr

/-! ## Framed codec (src/frame.rs)

The payload serializer (`postcard`) is external to the repository; the codec
is therefore parameterized by a serialize function `ser : P → List Nat` and a
deserialize function `deser : List Nat → Option P`, exactly as the codec in
`src/frame.rs` is parameterized by a `Serialize + Deserialize` payload type.
-/

/-- Largest `u32` value, `u32::MAX`. -/
def u32MAX : Nat := 4294967295

/-- Little-endian bytes of `n` as in `u32::to_le_bytes` (for `n ≤ u32MAX`). -/
def toLe4 (n : Nat) : List Nat :=
  [n % 256, n / 256 % 256, n / 65536 % 256, n / 16777216 % 256]

/-- Decoding of four little-endian bytes as in `u32::from_le_bytes`. -/
def fromLe4 : List Nat → Nat
  | [b0, b1, b2, b3] => b0 + 256 * b1 + 65536 * b2 + 16777216 * b3
  | _ => 0

/-- Model of `RecvStream::read_exact` over a finite stream: reading `k`
bytes either returns the `k` bytes read plus the remaining stream, or —
when the stream finishes early — the number of bytes that were available
(`StreamReadExactError::FinishedEarly`). -/
def readExact (stream : List Nat) (k : Nat) : Except Nat (List Nat × List Nat) :=
  if k ≤ stream.length then Except.ok (stream.take k, stream.drop k)
  else Except.error stream.length

/-- Model of `SendFramed::send` (src/frame.rs lines 72-101): serialize,
reject with `ExceedsSizeLimit` when the length does not fit in a `u32`
(`u32::try_from(data.len())` fails exactly when `data.len() > u32::MAX`),
otherwise emit the little-endian length prefix followed by the payload as
one write. On error nothing is written. -/
def sendFramed {P : Type} (ser : P → List Nat) (packet : P) :
    Except FramedError (List Nat) :=
  let data := ser packet
  if data.length ≤ u32MAX then
    Except.ok (toLe4 data.length ++ data)
  else
    Except.error (FramedError.ExceedsSizeLimit data.length u32MAX
      "packets larget than u32::MAX")

/-- Model of `RecvFramed::recv` (src/frame.rs lines 130-167): read exactly
four bytes for the length prefix, decode it as little-endian, read exactly
that many payload bytes, deserialize. The `expected_size` recorded on a
short payload read is the literal `4` that appears in the source (line
157). -/
def recvFramed {P : Type} (deser : List Nat → Option P) (stream : List Nat) :
    Except FramedError P :=
  match readExact stream 4 with
  | Except.error received =>
      Except.error (FramedError.TransmissionError
        (TransmissionError.TransmissionEndedEarly 4 received "read frame length"))
  | Except.ok (lenBytes, rest) =>
      let length := fromLe4 lenBytes
      match readExact rest length with
      | Except.error received =>
          Except.error (FramedError.TransmissionError
            (TransmissionError.TransmissionEndedEarly 4 received "read frame data"))
      | Except.ok (data, _) =>
          match deser data with
          | some p => Except.ok p
          | none => Except.error (FramedError.InvalidEncoding data)

/-! ## Timeout registry (src/timeout.rs)

`TimeoutChannels` holds a `SlotMap` of oneshot senders and a `VecDeque` of
`(Instant, key)` pairs. The slotmap is external (the `slotmap` crate); its
contract — `insert` returns a key distinct from every key it has ever
returned — is modelled by a fresh-key counter. Instants are `Nat`. The
oneshot sender payloads play no role in the registry logic and are
abstracted away; presence of a key stands for presence of its sender.

The `added`/`expired`/`popped` fields are history logs used only to state
properties; the code state is `nextKey`/`channels`/`queue`/`timeout`.
-/

/-- State of a `TimeoutChannels` value, plus history logs. -/
structure TCState where
  nextKey : Nat
  channels : List Nat
  queue : List (Nat × Nat)
  timeout : Nat
  added : List Nat
  expired : List Nat
  popped : List Nat
  deriving Repr, DecidableEq

/-- Model of `TimeoutChannels::new`: empty registry with the given timeout. -/
def TCState.init (timeout : Nat) : TCState :=
  ⟨0, [], [], timeout, [], [], []⟩

/-- Model of `TimeoutChannels::add` (src/timeout.rs lines 144-185): insert a
fresh sender into the slotmap, push `(now, key)` to the back of the deque,
return the key. `t` is the `Instant::now()` observed under the queue lock. -/
def tcAdd (s : TCState) (t : Nat) : TCState × Nat :=
  ({ s with nextKey := s.nextKey + 1,
            channels := s.channels ++ [s.nextKey],
            queue := s.queue ++ [(t, s.nextKey)],
            added := s.added ++ [s.nextKey] }, s.nextKey)

/-- Model of `TimeoutChannels::pop` (src/timeout.rs lines 192-222): remove
the key from the slotmap (returning `None`, untouched queue, when absent),
then scan the deque and remove the first entry with this key. The returned
`Bool` is whether a sender was returned (`Some`). -/
def tcPop (s : TCState) (k : Nat) : TCState × Bool :=
  if k ∈ s.channels then
    ({ s with channels := s.channels.erase k,
              queue := s.queue.eraseP (fun v => v.2 == k),
              popped := s.popped ++ [k] }, true)
  else (s, false)

/-- Model of the pop-front loop of `TimeoutChannels::tick` (src/timeout.rs
lines 260-274): repeatedly drop the front entry while its instant is
elapsed by at least `timeout` (`item.0.elapsed() < timeout` breaks, i.e. an
entry with `t + timeout ≤ now` is expired). Returns the remaining queue and
the keys removed, in removal order. -/
def expireLoop (timeout now : Nat) : List (Nat × Nat) → List (Nat × Nat) × List Nat
  | [] => ([], [])
  | (t, k) :: rest =>
      if t + timeout ≤ now then
        let r := expireLoop timeout now rest
        (r.1, k :: r.2)
      else ((t, k) :: rest, [])

/-- Model of `TimeoutChannels::tick` (src/timeout.rs lines 229-275) at
wake-up instant `now`: remove every expired front entry from the deque and
its key from the slotmap. -/
def tcTick (s : TCState) (now : Nat) : TCState :=
  let r := expireLoop s.timeout now s.queue
  { s with queue := r.1,
           channels := r.2.foldl (fun cs k => cs.erase k) s.channels,
           expired := s.expired ++ r.2 }

/-- One client-visible operation on the registry. -/
inductive TCOp where
  | add (t : Nat) : TCOp
  | pop (k : Nat) : TCOp
  | tick (t : Nat) : TCOp
  deriving Repr, DecidableEq

/-- Application of one operation (dropping the value it returns). -/
def tcStep (s : TCState) : TCOp → TCState
  | TCOp.add t => (tcAdd s t).1
  | TCOp.pop k => (tcPop s k).1
  | TCOp.tick t => tcTick s t

/-- Run of a sequence of operations. -/
def tcExec (s : TCState) : List TCOp → TCState
  | [] => s
  | op :: ops => tcExec (tcStep s op) ops

/-- The instant an operation observes, if any. -/
def opTime : TCOp → Option Nat
  | TCOp.add t => some t
  | TCOp.pop _ => none
  | TCOp.tick t => some t

/-- Predicate: the instants observed by successive operations are
nondecreasing and at least `lb` (the `Instant` clock is monotone). -/
def timesMono (lb : Nat) : List TCOp → Bool
  | [] => true
  | op :: ops =>
      match opTime op with
      | none => timesMono lb ops
      | some t => lb ≤ t && timesMono t ops

/-- Invariant tying a reachable registry state to its history: the slotmap
keys are exactly the deque keys in order, keys are never duplicated, the
keys handed out are `0, …, nextKey-1`, and a key is live exactly when it
was added and neither expired nor popped. -/
structure TCInv (s : TCState) : Prop where
  chan_queue : s.channels = s.queue.map Prod.snd
  nodup : s.channels.Nodup
  added_range : s.added = List.range s.nextKey
  mem_iff : ∀ k, k ∈ s.channels ↔ (k ∈ s.added ∧ k ∉ s.expired ∧ k ∉ s.popped)
  expired_lt : ∀ k ∈ s.expired, k < s.nextKey
  popped_lt : ∀ k ∈ s.popped, k < s.nextKey

/-- Time invariant: the deque is nondecreasing in its instants, all of
which are at most the current clock lower bound `lb`. -/
def TCTimeInv (lb : Nat) (s : TCState) : Prop :=
  s.queue.Pairwise (fun a b => a.1 ≤ b.1) ∧ ∀ p ∈ s.queue, p.1 ≤ lb

/-! ## Peer messages (src/peer/message.rs) -/

/-- Mirror of `ActorID` from src/peer/message.rs. -/
inductive ActorID where
  | ID (id : Nat) : ActorID
  | Name (name : String) : ActorID
  deriving DecidableEq, Repr

/-- Mirror of `HandshakeResponse` from src/peer/message.rs. -/
inductive HandshakeResponse where
  | Ok : HandshakeResponse
  | NameTaken : HandshakeResponse
  deriving DecidableEq, Repr

/-- Mirror of `ChannelPurpose` from src/peer/message.rs. -/
inductive ChannelPurpose where
  | Handshake : ChannelPurpose
  | RequestResponse (actor : ActorID) : ChannelPurpose
  deriving DecidableEq, Repr

/-- Mirror of `PeerMessage` from src/peer/message.rs. `RequestID` slotmap
keys are modelled as `Nat`. -/
inductive PeerMessage where
  | Initialize (purpose : ChannelPurpose) : PeerMessage
  | Handshake (name : String) : PeerMessage
  | HandshakeResponse (response : Palantir.HandshakeResponse) : PeerMessage
  | Request (request_id : Nat) (body : List Nat) : PeerMessage
  | Response (request_id : Nat) (body : List Nat) : PeerMessage
  deriving DecidableEq, Repr

/-! ## Channel run-loop (src/peer/channel.rs)

`Channel::run` reads framed packets in a loop. A recv result is modelled as
`Option PeerMessage`: `none` is a decode/transport error (the loop discards
the error value). The loop is driven over a finite list of successive recv
results; `channelRun c evs = true` means the `while error_counter < 5`
condition fails — i.e. the loop terminates — at some point while consuming
`evs` (starting with `error_counter = c`), and `false` means the loop is
still running (blocked on the next recv) when `evs` runs out. -/

/-- Termination behaviour of `Channel::run` (src/peer/channel.rs lines
71-106) over a finite list of recv results. -/
def channelRun (counter : Nat) : List (Option PeerMessage) → Bool
  | [] => decide (5 ≤ counter)
  | e :: rest =>
      if 5 ≤ counter then true
      else
        match e with
        | none => channelRun (counter + 1) rest
        | some _ => channelRun 0 rest

/-- The `request_id`s the run-loop hands to `responders.pop`, in order: one
for each `Response` frame received while the loop is live; every other
frame kind is discarded without touching the registry. -/
def channelRunPops (counter : Nat) : List (Option PeerMessage) → List Nat
  | [] => []
  | e :: rest =>
      if 5 ≤ counter then []
      else
        match e with
        | none => channelRunPops (counter + 1) rest
        | some (PeerMessage.Response request_id _) =>
            request_id :: channelRunPops 0 rest
        | some _ => channelRunPops 0 rest

/-- Test for the `Response` frame kind. -/
def isResponse : PeerMessage → Bool
  | PeerMessage.Response _ _ => true
  | _ => false

/-! ## Wire messages and handshake (src/message.rs, src/error.rs) -/

/-- Mirror of `ConnectionError` from src/error.rs. -/
inductive ConnectionError where
  | ConnectionClose (reason : String) : ConnectionError
  | LocallyClosed : ConnectionError
  | LocallyAborted (reason : String) : ConnectionError
  | TimedOut : ConnectionError
  | TransportError (reason : String) : ConnectionError
  deriving DecidableEq, Repr

/-- Mirror of `HandshakeError` from src/error.rs. -/
inductive HandshakeError where
  | FramedError (e : FramedError) : HandshakeError
  | UnexpectedPacket : HandshakeError
  | InvalidMagic : HandshakeError
  | NameTaken : HandshakeError
  | TransmissionError (e : TransmissionError) : HandshakeError
  | ConnectionError (e : ConnectionError) : HandshakeError
  deriving DecidableEq, Repr

/-- Mirror of `PalantirMessage` from src/message.rs, parameterized by the
validator's packet type `VP` (`V::Packet`). -/
inductive PalantirMessage (VP : Type) where
  | ClientInitiation (magic : String) (name : String) : PalantirMessage VP
  | ServerResponse (magic : String) (name : String) : PalantirMessage VP
  | ValidatorPacket (packet : VP) : PalantirMessage VP
  | HandshakeCompleted : PalantirMessage VP
  | Request (id : Nat) (data : List Nat) : PalantirMessage VP
  | Response (id : Nat) (data : List Nat) : PalantirMessage VP
  | NameTaken : PalantirMessage VP
  | InvalidMagic : PalantirMessage VP
  | UnexpectedPacket : PalantirMessage VP
  | MalformedData : PalantirMessage VP
  deriving DecidableEq, Repr

/-- The recv errors reachable in the handshake (`recv` never produces
`ExceedsSizeLimit`; the source marks that arm `unreachable!`). -/
inductive RecvError where
  | TransmissionError (e : TransmissionError) : RecvError
  | InvalidEncoding (packet : List Nat) : RecvError
  deriving DecidableEq, Repr

/-- Environment of one `server_handshake` execution: the results of its two
`recv` calls, the validator window's verdict (step 3 is handed the stream
and is opaque to the handshake), and the outcomes of its successive `send`
calls (`none` = success). -/
structure ServerHsEnv (VP : Type) where
  recvInit : Except RecvError (PalantirMessage VP)
  validatorResult : Except (List HandshakeError) Unit
  recvDone : Except RecvError (PalantirMessage VP)
  sendResults : List (Option FramedError)

/-- Observable outcome of a handshake execution: frames handed to
`framed.send` in order, whether the validator window ran, and the result. -/
structure HsOutcome (VP : Type) where
  sent : List (PalantirMessage VP)
  validatorInvoked : Bool
  result : Except (List HandshakeError) String

/-- The error-list contribution of one possibly-failing `send` (the `if let
Err(e) = res { errs.push(e.into()) }` pattern). -/
def sendErrList (o : Option FramedError) : List HandshakeError :=
  match o with
  | none => []
  | some e => [HandshakeError.FramedError e]

/-- Model of `server_handshake` (src/message.rs lines 166-325): receive the
client's initiation; reply `MalformedData`/`UnexpectedPacket`/
`InvalidMagic`/`NameTaken` and abort on a bad frame, non-initiation
variant, wrong magic, or duplicate name; otherwise transmit the step-2
response — which the source constructs as
`PalantirMessage::ClientInitiation` (line 266), not `ServerResponse` — run
the validator window, and await `HandshakeCompleted`. -/
def serverHandshake {VP : Type} (instName : String) (peers : List String)
    (env : ServerHsEnv VP) : HsOutcome VP :=
  match env.recvInit with
  | Except.error (RecvError.TransmissionError e) =>
      ⟨[], false,
        Except.error [HandshakeError.FramedError (FramedError.TransmissionError e)]⟩
  | Except.error (RecvError.InvalidEncoding p) =>
      ⟨[PalantirMessage.MalformedData], false,
        Except.error (HandshakeError.FramedError (FramedError.InvalidEncoding p) ::
          sendErrList (env.sendResults.headD none))⟩
  | Except.ok (PalantirMessage.ClientInitiation magic name) =>
      if magic ≠ "PALANTIR" then
        ⟨[PalantirMessage.InvalidMagic], false,
          Except.error (HandshakeError.InvalidMagic ::
            sendErrList (env.sendResults.headD none))⟩
      else if name ∈ peers then
        ⟨[PalantirMessage.NameTaken], false,
          Except.error (HandshakeError.NameTaken ::
            sendErrList (env.sendResults.headD none))⟩
      else
        let response : PalantirMessage VP :=
          PalantirMessage.ClientInitiation "PALANTIR" instName
        match env.sendResults.headD none with
        | some e => ⟨[response], false, Except.error [HandshakeError.FramedError e]⟩
        | none =>
            match env.validatorResult with
            | Except.error errs => ⟨[response], true, Except.error errs⟩
            | Except.ok _ =>
                match env.recvDone with
                | Except.error (RecvError.TransmissionError e) =>
                    ⟨[response], true,
                      Except.error [HandshakeError.FramedError
                        (FramedError.TransmissionError e)]⟩
                | Except.error (RecvError.InvalidEncoding p) =>
                    ⟨[response, PalantirMessage.MalformedData], true,
                      Except.error (HandshakeError.FramedError
                          (FramedError.InvalidEncoding p) ::
                        sendErrList (env.sendResults.tail.headD none))⟩
                | Except.ok PalantirMessage.HandshakeCompleted =>
                    ⟨[response], true, Except.ok name⟩
                | Except.ok _ =>
                    ⟨[response, PalantirMessage.UnexpectedPacket], true,
                      Except.error (HandshakeError.UnexpectedPacket ::
                        sendErrList (env.sendResults.tail.headD none))⟩
  | Except.ok _ =>
      ⟨[PalantirMessage.UnexpectedPacket], false,
        Except.error (HandshakeError.UnexpectedPacket ::
          sendErrList (env.sendResults.headD none))⟩

/-! ## Peer-iteration handshake (src/peer/handshake.rs, src/peer/error.rs) -/

namespace Peer

/-- Mirror of `HandshakeError` from src/peer/error.rs. -/
inductive HandshakeError where
  | FramedError (e : Palantir.FramedError) : HandshakeError
  | UnexpectedPacket : HandshakeError
  | NameTaken : HandshakeError
  | UnsatisfactoryResponse (r : Palantir.HandshakeResponse) : HandshakeError
  | TransmissionError (e : Palantir.TransmissionError) : HandshakeError
  | ConnectionError (e : Palantir.ConnectionError) : HandshakeError
  deriving DecidableEq, Repr

end Peer

/-- Outcome of one `peer::handshake` execution: frames handed to
`framed.send` in order, the peer table afterwards, and the result. -/
structure PeerHsOutcome where
  sent : List PeerMessage
  peers' : List String
  result : Except Peer.HandshakeError String
  deriving Repr

/-- Default recv result once the modelled stream is exhausted: a transport
error, as from a closed stream. -/
def recvDefault : Except FramedError PeerMessage :=
  Except.error (FramedError.TransmissionError TransmissionError.TransportError)

/-- Model of the tail of `peer::handshake` (src/peer/handshake.rs lines
43-75), common to both sides after the channel-purpose exchange: send own
`Handshake{name}`, receive the peer's, abort with `NameTaken` (after
informing the peer) when the name is already a peer-table key, otherwise
exchange `HandshakeResponse`s and insert the peer on mutual `Ok`. `recvs`
and `sends` are the results of the remaining successive recv/send calls
(`none` = send success). -/
def peerHandshakeInfo (ownName : String) (peers : List String)
    (sent : List PeerMessage) (recvs : List (Except FramedError PeerMessage))
    (sends : List (Option FramedError)) : PeerHsOutcome :=
  let sent := sent ++ [PeerMessage.Handshake ownName]
  match sends.headD none with
  | some e => ⟨sent, peers, Except.error (Peer.HandshakeError.FramedError e)⟩
  | none =>
    match recvs.headD recvDefault with
    | Except.error e => ⟨sent, peers, Except.error (Peer.HandshakeError.FramedError e)⟩
    | Except.ok (PeerMessage.Handshake name) =>
        if name ∈ peers then
          let sent := sent ++ [PeerMessage.HandshakeResponse HandshakeResponse.NameTaken]
          match sends.tail.headD none with
          | some e => ⟨sent, peers, Except.error (Peer.HandshakeError.FramedError e)⟩
          | none => ⟨sent, peers, Except.error Peer.HandshakeError.NameTaken⟩
        else
          let sent := sent ++ [PeerMessage.HandshakeResponse HandshakeResponse.Ok]
          match sends.tail.headD none with
          | some e => ⟨sent, peers, Except.error (Peer.HandshakeError.FramedError e)⟩
          | none =>
            match recvs.tail.headD recvDefault with
            | Except.error e =>
                ⟨sent, peers, Except.error (Peer.HandshakeError.FramedError e)⟩
            | Except.ok (PeerMessage.HandshakeResponse HandshakeResponse.Ok) =>
                ⟨sent, name :: peers, Except.ok name⟩
            | Except.ok (PeerMessage.HandshakeResponse r) =>
                ⟨sent, peers, Except.error (Peer.HandshakeError.UnsatisfactoryResponse r)⟩
            | Except.ok _ =>
                ⟨sent, peers, Except.error Peer.HandshakeError.UnexpectedPacket⟩
    | Except.ok _ => ⟨sent, peers, Except.error Peer.HandshakeError.UnexpectedPacket⟩

/-- Model of `peer::handshake` (src/peer/handshake.rs lines 15-76): the
acceptor first expects `Initialize(Handshake)`, the initiator first sends
it; then both run the common exchange of `peerHandshakeInfo`. -/
def peerHandshake (ownName : String) (peers : List String) (isServer : Bool)
    (recvs : List (Except FramedError PeerMessage))
    (sends : List (Option FramedError)) : PeerHsOutcome :=
  if isServer then
    match recvs.headD recvDefault with
    | Except.error e => ⟨[], peers, Except.error (Peer.HandshakeError.FramedError e)⟩
    | Except.ok (PeerMessage.Initialize ChannelPurpose.Handshake) =>
        peerHandshakeInfo ownName peers [] recvs.tail sends
    | Except.ok _ => ⟨[], peers, Except.error Peer.HandshakeError.UnexpectedPacket⟩
  else
    match sends.headD none with
    | some e =>
        ⟨[PeerMessage.Initialize ChannelPurpose.Handshake], peers,
          Except.error (Peer.HandshakeError.FramedError e)⟩
    | none =>
        peerHandshakeInfo ownName peers
          [PeerMessage.Initialize ChannelPurpose.Handshake] recvs sends.tail

/-! ## Server accept loop and peer table (src/lib.rs) -/

/-- An accepted session request: its headers, as read by
`request.headers().get(..)`. -/
structure SessionRequest where
  headers : List (String × String)
  deriving DecidableEq, Repr

/-- Header lookup (`request.headers().get("name")`): `none` when the header
is absent; an empty value is `some ""`. -/
def headersGet (headers : List (String × String)) (key : String) : Option String :=
  (headers.find? (fun h => h.1 == key)).map (fun h => h.2)

/-- How one iteration of the accept loop disposes of an incoming session. -/
inductive AcceptOutcome where
  | refused : AcceptOutcome
  | ignored : AcceptOutcome
  | forbidden : AcceptOutcome
  | spawned (name : String) : AcceptOutcome
  deriving DecidableEq, Repr

/-- Model of one iteration of the accept loop of `Palantir::run`
(src/lib.rs lines 181-226): refuse when `validate_incoming_session` fails;
silently drop a failed session await; answer `forbidden` when the `name`
header is missing, when the name is already a peer-table key, or when
`validate_session_request` fails; silently drop a failed accept; otherwise
spawn the connection handler. The second component records whether
`validate_session_request` was invoked. -/
def runAcceptOnce (peers : List String) (validateIncomingSession : Bool)
    (sessionRequest : Option SessionRequest) (validateSessionRequest : Bool)
    (acceptOk : Bool) : AcceptOutcome × Bool :=
  if ¬ validateIncomingSession then (AcceptOutcome.refused, false)
  else
    match sessionRequest with
    | none => (AcceptOutcome.ignored, false)
    | some request =>
        match headersGet request.headers "name" with
        | none => (AcceptOutcome.forbidden, false)
        | some name =>
            if name ∈ peers then (AcceptOutcome.forbidden, false)
            else if ¬ validateSessionRequest then (AcceptOutcome.forbidden, true)
            else if ¬ acceptOk then (AcceptOutcome.ignored, true)
            else (AcceptOutcome.spawned name, true)

/-- The `PalantirError` used by src/lib.rs. Its declaration is absent from
the sources (the `error.rs` in the tree belongs to a different iteration
and lacks `DuplicateName`); the variants are taken from their use sites in
src/lib.rs, with the connecting-error payload omitted as unused here. -/
inductive PalantirError where
  | ClientConnectingError : PalantirError
  | ConnectionError (e : Palantir.ConnectionError) : PalantirError
  | TransmissionError (e : Palantir.TransmissionError) : PalantirError
  | FramedError (e : Palantir.FramedError) : PalantirError
  | PeerIncorrectlyResponded : PalantirError
  | DuplicateName : PalantirError
  deriving DecidableEq, Repr

/-- Model of the peer-table step at the end of `Palantir::new_peer`
(src/lib.rs lines 143-160), after the handshake yielded `name` over a
connection with remote address `connAddr`: when the name is already a key,
return `Ok(())` if the stored connection's remote address equals the new
one, else `Err(DuplicateName)` — the table is untouched either way; a fresh
name is inserted. The table is an association list `name ↦ remote address`
(addresses as `Nat`). -/
def newPeerInsert (peers : List (String × Nat)) (name : String) (connAddr : Nat) :
    Except PalantirError Unit × List (String × Nat) :=
  match peers.find? (fun p => p.1 == name) with
  | some peer =>
      if peer.2 == connAddr then (Except.ok (), peers)
      else (Except.error PalantirError.DuplicateName, peers)
  | none => (Except.ok (), (name, connAddr) :: peers)

/-! ## Codec lemmas and claim theorems -/

theorem toLe4_length (n : Nat) : (toLe4 n).length = 4 := rfl

theorem fromLe4_toLe4 (n : Nat) (h : n ≤ u32MAX) : fromLe4 (toLe4 n) = n := by
  simp only [toLe4, fromLe4, u32MAX] at *
  omega

theorem readExact_append (l rest : List Nat) :
    readExact (l ++ rest) l.length = Except.ok (l, rest) := by
  simp [readExact, List.take_left, List.drop_left]

/-- C2: sending a payload whose serialization has `n ≤ u32::MAX` bytes
produces the little-endian `u32` length prefix followed by exactly the
payload bytes, and `RecvFramed::recv` on that byte sequence (followed by
any further stream contents) returns the original payload, provided the
node-wide serialization format round-trips on it. -/
theorem frame_send_recv_roundtrip {P : Type} (ser : P → List Nat)
    (deser : List Nat → Option P) (p : P) (rest : List Nat)
    (hlen : (ser p).length ≤ u32MAX) (hround : deser (ser p) = some p) :
    sendFramed ser p = Except.ok (toLe4 (ser p).length ++ ser p) ∧
    recvFramed deser (toLe4 (ser p).length ++ (ser p ++ rest)) = Except.ok p := by
  constructor
  · simp [sendFramed, hlen]
  · unfold recvFramed
    have h4 : readExact (toLe4 (ser p).length ++ (ser p ++ rest)) 4 =
        Except.ok (toLe4 (ser p).length, ser p ++ rest) := by
      have h := readExact_append (toLe4 (ser p).length) (ser p ++ rest)
      rwa [toLe4_length] at h
    rw [h4]
    simp only [fromLe4_toLe4 _ hlen, readExact_append, hround]

/-- C2 witness: concrete roundtrip for the identity codec on payload
`[1, 2, 3]`. -/
theorem frame_send_recv_roundtrip_witness :
    (((fun (l : List Nat) => l) [1, 2, 3]).length ≤ u32MAX ∧
      (fun (l : List Nat) => some l) ((fun (l : List Nat) => l) [1, 2, 3]) =
        some [1, 2, 3]) ∧
    (sendFramed (fun (l : List Nat) => l) [1, 2, 3] =
        Except.ok (toLe4 ([1, 2, 3] : List Nat).length ++ [1, 2, 3]) ∧
      recvFramed (fun (l : List Nat) => some l)
          (toLe4 ([1, 2, 3] : List Nat).length ++ ([1, 2, 3] ++ [])) =
        Except.ok [1, 2, 3]) :=
  ⟨⟨by decide, rfl⟩,
    frame_send_recv_roundtrip (fun l => l) (fun l => some l) [1, 2, 3] []
      (by decide) rfl⟩

/-- C3: evaluating `RecvFramed::recv` on a stream whose length prefix
decodes to `5` but which finishes after only `3` payload bytes. The source
(src/frame.rs line 157) hardcodes `expected_size: 4` in the payload-read
branch, so the error carries `expected_size = 4`, not the prefix value `5`
the specification states. -/
theorem recv_short_payload_expected_size_is_4 :
    recvFramed (fun (l : List Nat) => some l) ([5, 0, 0, 0] ++ [1, 2, 3]) =
      Except.error (FramedError.TransmissionError
        (TransmissionError.TransmissionEndedEarly 4 3 "read frame data")) := by
  rfl

/-- C4 counterexample: a payload of exactly `u32::MAX` serialized bytes is
*not* rejected — `u32::try_from(data.len())` succeeds at `u32::MAX`, so the
frame is built and written. -/
theorem send_at_exactly_u32max_succeeds :
    sendFramed (fun (l : List Nat) => l) (List.replicate u32MAX 0) =
      Except.ok (toLe4 u32MAX ++ List.replicate u32MAX 0) := by
  simp [sendFramed, List.length_replicate]

/-- C4 (amended): `SendFramed::send` returns `ExceedsSizeLimit` and writes
nothing exactly when the serialized length strictly exceeds `u32::MAX`; at
exactly `u32::MAX` the frame is sent. -/
theorem send_size_limit {P : Type} (ser : P → List Nat) (p : P)
    (h : u32MAX < (ser p).length) :
    sendFramed ser p = Except.error (FramedError.ExceedsSizeLimit
      (ser p).length u32MAX "packets larget than u32::MAX") := by
  simp [sendFramed, Nat.not_le.mpr h]

/-- C4 (amended) witness: a payload of `u32::MAX + 1` bytes is rejected. -/
theorem send_size_limit_witness :
    u32MAX < ((fun (l : List Nat) => l) (List.replicate (u32MAX + 1) 0)).length ∧
    sendFramed (fun (l : List Nat) => l) (List.replicate (u32MAX + 1) 0) =
      Except.error (FramedError.ExceedsSizeLimit
        ((fun (l : List Nat) => l) (List.replicate (u32MAX + 1) 0)).length u32MAX
        "packets larget than u32::MAX") :=
  ⟨by simp [List.length_replicate],
    send_size_limit (fun l => l) (List.replicate (u32MAX + 1) 0)
      (by simp [List.length_replicate])⟩

/-! ## Registry lemmas and claim theorems -/

theorem map_snd_eraseP (l : List (Nat × Nat)) (k : Nat) :
    (l.eraseP (fun v => v.2 == k)).map Prod.snd =
      (l.map Prod.snd).eraseP (fun x => x == k) := by
  induction l with
  | nil => rfl
  | cons a l ih =>
      by_cases h : a.2 = k
      · simp [List.eraseP_cons, h]
      · simp [List.eraseP_cons, h, ih]

theorem erase_eq_erasePeq (l : List Nat) (k : Nat) :
    l.erase k = l.eraseP (fun x => x == k) := by
  induction l with
  | nil => rfl
  | cons a l ih =>
      by_cases h : a = k
      · simp [List.erase_cons, List.eraseP_cons, h]
      · simp [List.erase_cons, List.eraseP_cons, h, ih]

theorem foldl_erase_append (ex rest : List Nat) (h : (ex ++ rest).Nodup) :
    ex.foldl (fun cs k => cs.erase k) (ex ++ rest) = rest := by
  induction ex with
  | nil => rfl
  | cons a ex ih =>
      have h' : (ex ++ rest).Nodup := by
        simpa using h.of_cons
      have : ((a :: ex) ++ rest).erase a = ex ++ rest := by
        simp [List.erase_cons_head]
      simpa [List.foldl_cons, this] using ih h'

theorem expireLoop_map_snd (timeout now : Nat) (l : List (Nat × Nat)) :
    l.map Prod.snd =
      (expireLoop timeout now l).2 ++ (expireLoop timeout now l).1.map Prod.snd := by
  induction l with
  | nil => rfl
  | cons a l ih =>
      by_cases h : a.1 + timeout ≤ now
      · simpa [expireLoop, h] using ih
      · simp [expireLoop, h]

theorem expireLoop_sublist (timeout now : Nat) (l : List (Nat × Nat)) :
    (expireLoop timeout now l).1.Sublist l := by
  induction l with
  | nil => simp [expireLoop]
  | cons a l ih =>
      by_cases h : a.1 + timeout ≤ now
      · simpa [expireLoop, h] using ih.cons a
      · simp [expireLoop, h]

theorem TCInv_init (timeout : Nat) : TCInv (TCState.init timeout) := by
  refine ⟨rfl, List.nodup_nil, rfl, ?_, ?_, ?_⟩ <;> simp [TCState.init]

theorem TCInv_add (s : TCState) (t : Nat) (h : TCInv s) : TCInv (tcAdd s t).1 := by
  have hKadd : s.nextKey ∉ s.channels := by
    intro hmem
    have := (h.mem_iff s.nextKey).mp hmem
    rw [h.added_range, List.mem_range] at this
    exact absurd this.1 (lt_irrefl _)
  refine ⟨?_, ?_, ?_, ?_, ?_, ?_⟩
  · simp [tcAdd, h.chan_queue]
  · simp only [tcAdd]
    rw [List.nodup_append]
    exact ⟨h.nodup, List.nodup_singleton _, by simpa using hKadd⟩
  · simp [tcAdd, h.added_range, List.range_succ]
  · intro j
    simp only [tcAdd, List.mem_append, List.mem_singleton]
    by_cases hj : j = s.nextKey
    · subst hj
      constructor
      · intro _
        refine ⟨Or.inr rfl, fun hc => ?_, fun hc => ?_⟩
        · exact absurd (h.expired_lt _ hc) (lt_irrefl _)
        · exact absurd (h.popped_lt _ hc) (lt_irrefl _)
      · intro _
        exact Or.inr rfl
    · constructor
      · intro hmem
        rcases hmem with hmem | hmem
        · have := (h.mem_iff j).mp hmem
          exact ⟨Or.inl this.1, this.2.1, this.2.2⟩
        · exact absurd hmem hj
      · intro hmem
        rcases hmem.1 with ha | ha
        · exact Or.inl ((h.mem_iff j).mpr ⟨ha, hmem.2.1, hmem.2.2⟩)
        · exact absurd ha hj
  · intro k hk
    exact Nat.lt_succ_of_lt (h.expired_lt k hk)
  · intro k hk
    exact Nat.lt_succ_of_lt (h.popped_lt k hk)

theorem TCInv_pop (s : TCState) (k : Nat) (h : TCInv s) : TCInv (tcPop s k).1 := by
  by_cases hk : k ∈ s.channels
  · have hkn : k < s.nextKey := by
      have := ((h.mem_iff k).mp hk).1
      rwa [h.added_range, List.mem_range] at this
    simp only [tcPop, if_pos hk]
    refine ⟨?_, h.nodup.erase k, h.added_range, ?_, h.expired_lt, ?_⟩
    · rw [map_snd_eraseP, ← h.chan_queue, ← erase_eq_erasePeq]
    · intro j
      rw [h.nodup.mem_erase_iff, h.mem_iff j]
      simp only [List.mem_append, List.mem_singleton]
      tauto
    · intro j hj
      simp only [List.mem_append, List.mem_singleton] at hj
      rcases hj with hj | hj
      · exact h.popped_lt j hj
      · exact hj ▸ hkn
  · simpa [tcPop, hk] using h

theorem TCInv_tick (s : TCState) (now : Nat) (h : TCInv s) : TCInv (tcTick s now) := by
  have hdecomp : s.channels =
      (expireLoop s.timeout now s.queue).2 ++
        (expireLoop s.timeout now s.queue).1.map Prod.snd := by
    rw [h.chan_queue]
    exact expireLoop_map_snd _ _ _
  have hnd : ((expireLoop s.timeout now s.queue).2 ++
      (expireLoop s.timeout now s.queue).1.map Prod.snd).Nodup := hdecomp ▸ h.nodup
  have hfold : (expireLoop s.timeout now s.queue).2.foldl
      (fun cs k => cs.erase k) s.channels =
      (expireLoop s.timeout now s.queue).1.map Prod.snd := by
    rw [hdecomp]
    exact foldl_erase_append _ _ hnd
  obtain ⟨hnd2, hnd1, hdisj⟩ := List.nodup_append.mp hnd
  have hmem : ∀ j, j ∈ (expireLoop s.timeout now s.queue).1.map Prod.snd ↔
      (j ∈ s.channels ∧ j ∉ (expireLoop s.timeout now s.queue).2) := by
    intro j
    constructor
    · intro hj
      refine ⟨hdecomp ▸ List.mem_append.mpr (Or.inr hj), fun hc => hdisj hc hj⟩
    · intro ⟨hj, hnex⟩
      rcases List.mem_append.mp (hdecomp ▸ hj) with hj' | hj'
      · exact absurd hj' hnex
      · exact hj'
  refine ⟨?_, ?_, h.added_range, ?_, ?_, h.popped_lt⟩
  · simpa [tcTick] using hfold
  · show ((expireLoop s.timeout now s.queue).2.foldl
        (fun cs k => cs.erase k) s.channels).Nodup
    rw [hfold]
    exact hnd1
  · intro j
    show j ∈ (expireLoop s.timeout now s.queue).2.foldl
        (fun cs k => cs.erase k) s.channels ↔ _
    rw [hfold, hmem j, h.mem_iff j]
    simp only [tcTick, List.mem_append]
    tauto
  · intro j hj
    simp only [tcTick, List.mem_append] at hj
    rcases hj with hj | hj
    · exact h.expired_lt j hj
    · have : j ∈ s.channels := hdecomp ▸ List.mem_append.mpr (Or.inl hj)
      have := ((h.mem_iff j).mp this).1
      rwa [h.added_range, List.mem_range] at this

theorem TCInv_step (s : TCState) (op : TCOp) (h : TCInv s) : TCInv (tcStep s op) := by
  cases op with
  | add t => exact TCInv_add s t h
  | pop k => exact TCInv_pop s k h
  | tick t => exact TCInv_tick s t h

theorem TCInv_exec (ops : List TCOp) (s : TCState) (h : TCInv s) :
    TCInv (tcExec s ops) := by
  induction ops generalizing s with
  | nil => exact h
  | cons op ops ih => exact ih _ (TCInv_step s op h)

theorem TCTimeInv_add (s : TCState) (lb t : Nat) (h : TCTimeInv lb s)
    (hlb : lb ≤ t) : TCTimeInv t (tcAdd s t).1 := by
  constructor
  · show (s.queue ++ [(t, s.nextKey)]).Pairwise _
    rw [List.pairwise_append]
    refine ⟨h.1, List.pairwise_singleton _ _, ?_⟩
    intro a ha b hb
    rw [List.mem_singleton] at hb
    subst hb
    exact le_trans (h.2 a ha) hlb
  · intro p hp
    rcases List.mem_append.mp hp with hp | hp
    · exact le_trans (h.2 p hp) hlb
    · rw [List.mem_singleton] at hp
      subst hp
      exact le_refl t

theorem TCTimeInv_pop (s : TCState) (lb k : Nat) (h : TCTimeInv lb s) :
    TCTimeInv lb (tcPop s k).1 := by
  by_cases hk : k ∈ s.channels
  · simp only [tcPop, if_pos hk]
    exact ⟨h.1.sublist (List.eraseP_sublist _),
      fun p hp => h.2 p ((List.eraseP_sublist _).subset hp)⟩
  · simpa [tcPop, hk] using h

theorem TCTimeInv_tick (s : TCState) (lb t : Nat) (h : TCTimeInv lb s)
    (hlb : lb ≤ t) : TCTimeInv t (tcTick s t) := by
  constructor
  · exact h.1.sublist (expireLoop_sublist _ _ _)
  · intro p hp
    exact le_trans (h.2 p ((expireLoop_sublist _ _ _).subset hp)) hlb

theorem TCTimeInv_exec (ops : List TCOp) (s : TCState) (lb : Nat)
    (h : TCTimeInv lb s) (hm : timesMono lb ops = true) :
    ∃ lb', TCTimeInv lb' (tcExec s ops) := by
  induction ops generalizing s lb with
  | nil => exact ⟨lb, h⟩
  | cons op ops ih =>
      cases op with
      | add t =>
          simp only [timesMono, opTime, Bool.and_eq_true, decide_eq_true_eq] at hm
          exact ih _ _ (TCTimeInv_add s lb t h hm.1) hm.2
      | pop k =>
          simp only [timesMono, opTime] at hm
          exact ih _ _ (TCTimeInv_pop s lb k h) hm
      | tick t =>
          simp only [timesMono, opTime, Bool.and_eq_true, decide_eq_true_eq] at hm
          exact ih _ _ (TCTimeInv_tick s lb t h hm.1) hm.2

/-- C5: over any operation sequence on the timeout registry, every key
returned by `add` is distinct from all previously returned keys, `pop k`
succeeds exactly when `k` was added and has neither expired nor been popped
before, and a successful pop removes the entry from both the slotmap and
the deque. -/
theorem timeout_registry_pop_spec (timeout : Nat) (ops : List TCOp) :
    (tcExec (TCState.init timeout) ops).added.Nodup ∧
    ∀ k,
      ((tcPop (tcExec (TCState.init timeout) ops) k).2 = true ↔
        (k ∈ (tcExec (TCState.init timeout) ops).added ∧
          k ∉ (tcExec (TCState.init timeout) ops).expired ∧
          k ∉ (tcExec (TCState.init timeout) ops).popped)) ∧
      ((tcPop (tcExec (TCState.init timeout) ops) k).2 = true →
        k ∉ (tcPop (tcExec (TCState.init timeout) ops) k).1.channels ∧
        k ∉ ((tcPop (tcExec (TCState.init timeout) ops) k).1.queue.map Prod.snd)) := by
  have hinv : TCInv (tcExec (TCState.init timeout) ops) :=
    TCInv_exec ops _ (TCInv_init timeout)
  set s := tcExec (TCState.init timeout) ops with hs
  have hpop : ∀ k, (tcPop s k).2 = true ↔ k ∈ s.channels := by
    intro k
    by_cases hk : k ∈ s.channels <;> simp [tcPop, hk]
  refine ⟨hinv.added_range ▸ List.nodup_range _, fun k => ⟨?_, ?_⟩⟩
  · rw [hpop k, hinv.mem_iff k]
  · intro hk
    have hk' : k ∈ s.channels := (hpop k).mp hk
    have hinv' : TCInv (tcPop s k).1 := TCInv_pop s k hinv
    have hch : k ∉ (tcPop s k).1.channels := by
      simp only [tcPop, if_pos hk']
      rw [hinv.nodup.mem_erase_iff]
      simp
    exact ⟨hch, fun hq => hch (hinv'.chan_queue ▸ hq)⟩

/-- C6: after any operation sequence whose observed instants are monotone
(the `Instant` clock), the slotmap's key set equals the deque's key set,
each key occurs exactly once in the deque, and the deque's instants are
nondecreasing from front to back. -/
theorem timeout_registry_queue_invariant (timeout lb : Nat) (ops : List TCOp)
    (h : timesMono lb ops = true) :
    (∀ k, k ∈ (tcExec (TCState.init timeout) ops).channels ↔
        k ∈ (tcExec (TCState.init timeout) ops).queue.map Prod.snd) ∧
    ((tcExec (TCState.init timeout) ops).queue.map Prod.snd).Nodup ∧
    (tcExec (TCState.init timeout) ops).queue.Pairwise (fun a b => a.1 ≤ b.1) := by
  have hinv : TCInv (tcExec (TCState.init timeout) ops) :=
    TCInv_exec ops _ (TCInv_init timeout)
  have htime : ∃ lb', TCTimeInv lb' (tcExec (TCState.init timeout) ops) :=
    TCTimeInv_exec ops _ lb ⟨List.Pairwise.nil, by simp [TCState.init]⟩ h
  obtain ⟨lb', htime⟩ := htime
  exact ⟨fun k => hinv.chan_queue ▸ Iff.rfl,
    hinv.chan_queue ▸ hinv.nodup, htime.1⟩

/-- C6 witness: a concrete monotone operation sequence. -/
theorem timeout_registry_queue_invariant_witness :
    timesMono 0 [TCOp.add 1, TCOp.add 2, TCOp.pop 0, TCOp.tick 10] = true ∧
    ((∀ k, k ∈ (tcExec (TCState.init 3)
          [TCOp.add 1, TCOp.add 2, TCOp.pop 0, TCOp.tick 10]).channels ↔
        k ∈ (tcExec (TCState.init 3)
          [TCOp.add 1, TCOp.add 2, TCOp.pop 0, TCOp.tick 10]).queue.map Prod.snd) ∧
    ((tcExec (TCState.init 3)
        [TCOp.add 1, TCOp.add 2, TCOp.pop 0, TCOp.tick 10]).queue.map Prod.snd).Nodup ∧
    (tcExec (TCState.init 3)
        [TCOp.add 1, TCOp.add 2, TCOp.pop 0, TCOp.tick 10]).queue.Pairwise
      (fun a b => a.1 ≤ b.1)) :=
  ⟨by decide,
    timeout_registry_queue_invariant 3 0
      [TCOp.add 1, TCOp.add 2, TCOp.pop 0, TCOp.tick 10] (by decide)⟩

/-! ## Channel run-loop theorems -/

theorem channelRun_iff (evs : List (Option PeerMessage)) (c : Nat) :
    channelRun c evs = true ↔
      ( List.IsPrefix (List.replicate (5 - c) (none : Option PeerMessage)) evs ∨
        List.IsInfix (List.replicate 5 (none : Option PeerMessage)) evs) := by
  induction evs generalizing c with
  | nil =>
      simp only [channelRun, decide_eq_true_eq, List.prefix_nil, List.infix_nil,
        List.replicate_eq_nil_iff]
      constructor
      · intro h
        exact Or.inl (by omega)
      · rintro (h | h) <;> omega
  | cons e rest ih =>
      by_cases hc : 5 ≤ c
      · simp only [channelRun, if_pos hc, true_iff]
        exact Or.inl (by simp [Nat.sub_eq_zero_of_le hc, List.nil_prefix])
      · have hc5 : 5 - c = (4 - c) + 1 := by omega
        cases e with
        | none =>
            simp only [channelRun, if_neg hc]
            rw [ih (c + 1), show 5 - (c + 1) = 4 - c by omega]
            have h1 : List.IsPrefix (List.replicate (5 - c) (none : Option PeerMessage))
                (none :: rest) ↔
                List.IsPrefix (List.replicate (4 - c) (none : Option PeerMessage)) rest := by
              rw [hc5, List.replicate_succ, List.cons_prefix_cons]
              simp
            have h3 : List.IsPrefix (List.replicate 5 (none : Option PeerMessage))
                (none :: rest) ↔
                List.IsPrefix (List.replicate 4 (none : Option PeerMessage)) rest := by
              rw [show (5 : Nat) = 4 + 1 from rfl, List.replicate_succ,
                List.cons_prefix_cons]
              simp
            have himp : List.IsPrefix (List.replicate 4 (none : Option PeerMessage)) rest →
                List.IsPrefix (List.replicate (4 - c) (none : Option PeerMessage)) rest := by
              intro h
              refine List.IsPrefix.trans ?_ h
              have hsplit : List.replicate 4 (none : Option PeerMessage) =
                  List.replicate (4 - c) none ++ List.replicate (4 - (4 - c)) none := by
                rw [← List.replicate_add]
                congr 1
                omega
              rw [hsplit]
              exact List.prefix_append _ _
            rw [h1, List.infix_cons_iff, h3]
            tauto
        | some m =>
            simp only [channelRun, if_neg hc]
            rw [ih 0]
            have h1 : ¬ List.IsPrefix (List.replicate (5 - c) (none : Option PeerMessage))
                (some m :: rest) := by
              rw [hc5, List.replicate_succ, List.cons_prefix_cons]
              rintro ⟨h, -⟩
              exact Option.noConfusion h
            have h3 : ¬ List.IsPrefix (List.replicate 5 (none : Option PeerMessage))
                (some m :: rest) := by
              rw [show (5 : Nat) = 4 + 1 from rfl, List.replicate_succ,
                List.cons_prefix_cons]
              rintro ⟨h, -⟩
              exact Option.noConfusion h
            have h4 : List.IsPrefix (List.replicate 5 (none : Option PeerMessage)) rest →
                List.IsInfix (List.replicate 5 (none : Option PeerMessage)) rest :=
              fun h => List.IsPrefix.isInfix h
            rw [List.infix_cons_iff]
            simp only [show (5 : Nat) - 0 = 5 from rfl]
            tauto

/-- C7: the channel run-loop terminates exactly when five consecutive recv
errors occur (it never terminates while fewer have occurred); every
successfully received frame resets the consecutive-error count to zero, and
frames other than `Response` are discarded — the loop continues and issues
no registry pop for them. -/
theorem channel_run_loop_termination (evs : List (Option PeerMessage))
    (c : Nat) (m : PeerMessage) (rest : List (Option PeerMessage))
    (hc : c < 5) (hm : isResponse m = false) :
    (channelRun 0 evs = true ↔
      List.IsInfix (List.replicate 5 (none : Option PeerMessage)) evs) ∧
    channelRun c (some m :: rest) = channelRun 0 rest ∧
    channelRunPops c (some m :: rest) = channelRunPops 0 rest := by
  refine ⟨?_, ?_, ?_⟩
  · rw [channelRun_iff evs 0]
    constructor
    · rintro (h | h)
      · exact List.IsPrefix.isInfix h
      · exact h
    · exact Or.inr
  · simp only [channelRun, if_neg (Nat.not_le.mpr hc)]
  · cases m with
    | Response request_id body => exact absurd hm (by simp [isResponse])
    | Initialize p => simp only [channelRunPops, if_neg (Nat.not_le.mpr hc)]
    | Handshake n => simp only [channelRunPops, if_neg (Nat.not_le.mpr hc)]
    | HandshakeResponse r => simp only [channelRunPops, if_neg (Nat.not_le.mpr hc)]
    | Request request_id body =>
        simp only [channelRunPops, if_neg (Nat.not_le.mpr hc)]

/-- C7 witness: five consecutive errors terminate the loop; a `Handshake`
frame is discarded without a registry pop. -/
theorem channel_run_loop_termination_witness :
    ((0 : Nat) < 5 ∧ isResponse (PeerMessage.Handshake "x") = false) ∧
    ((channelRun 0 [none, none, none, none, none] = true ↔
      List.IsInfix (List.replicate 5 (none : Option PeerMessage))
        [none, none, none, none, none]) ∧
    channelRun 0 (some (PeerMessage.Handshake "x") :: []) = channelRun 0 [] ∧
    channelRunPops 0 (some (PeerMessage.Handshake "x") :: []) =
      channelRunPops 0 []) :=
  ⟨⟨by decide, rfl⟩,
    channel_run_loop_termination [none, none, none, none, none] 0
      (PeerMessage.Handshake "x") [] (by decide) rfl⟩

/-! ## Handshake theorems -/

/-- C1: the acceptor that receives a well-formed `ClientInitiation` with
correct magic and a fresh name transmits, as its next frame, a
`ClientInitiation { magic: "PALANTIR", name: <own name> }` — not the
`ServerResponse` variant the claim and the surrounding comments call for
(src/message.rs line 266 constructs the wrong variant; the initiator side,
line 98, destructures `ServerResponse` and would fail on this frame). -/
theorem server_handshake_sends_client_initiation :
    serverHandshake "srv" []
        (⟨Except.ok (PalantirMessage.ClientInitiation "PALANTIR" "cli"),
          Except.ok (), Except.ok PalantirMessage.HandshakeCompleted, []⟩ :
          ServerHsEnv Unit) =
      ⟨[PalantirMessage.ClientInitiation "PALANTIR" "srv"], true,
        Except.ok "cli"⟩ := by
  rfl

/-- C8: when the counterparty's received name is already a peer-table key,
the detecting side transmits a `NameTaken` frame, returns a `NameTaken`
error without ever invoking the validator window, and the peer table gains
no entry. First conjunct: `server_handshake` (src/message.rs) aborts with
`NameTaken` as the sole handshake error (plus at most the error of the
informing send), sends exactly the `NameTaken` frame, and never reaches the
validator. Second conjunct: the peer-iteration `handshake`
(src/peer/handshake.rs), which owns the peer-table insertion, leaves the
table unchanged on this path (its sends succeeding). -/
theorem handshake_name_taken {VP : Type} (instName name : String)
    (peers : List String) (env : ServerHsEnv VP)
    (hrecv : env.recvInit =
      Except.ok (PalantirMessage.ClientInitiation "PALANTIR" name))
    (hmem : name ∈ peers)
    (rs : List (Except FramedError PeerMessage))
    (ss : List (Option FramedError)) :
    ((serverHandshake instName peers env).sent = [PalantirMessage.NameTaken] ∧
      (serverHandshake instName peers env).validatorInvoked = false ∧
      (serverHandshake instName peers env).result =
        Except.error (HandshakeError.NameTaken ::
          sendErrList (env.sendResults.headD none))) ∧
    peerHandshake instName peers true
        (Except.ok (PeerMessage.Initialize ChannelPurpose.Handshake) ::
          Except.ok (PeerMessage.Handshake name) :: rs)
        (none :: none :: ss) =
      ⟨[PeerMessage.Handshake instName,
          PeerMessage.HandshakeResponse HandshakeResponse.NameTaken], peers,
        Except.error Peer.HandshakeError.NameTaken⟩ := by
  constructor
  · rw [show serverHandshake instName peers env =
        ⟨[PalantirMessage.NameTaken], false,
          Except.error (HandshakeError.NameTaken ::
            sendErrList (env.sendResults.headD none))⟩ from by
      simp [serverHandshake, hrecv, hmem]]
    exact ⟨rfl, rfl, rfl⟩
  · simp [peerHandshake, peerHandshakeInfo, hmem]

/-- C8 witness: acceptor named "srv" with peer table `["dup"]` receives a
correct initiation for the taken name "dup". -/
theorem handshake_name_taken_witness :
    ((⟨Except.ok (PalantirMessage.ClientInitiation "PALANTIR" "dup"),
        Except.ok (), Except.ok PalantirMessage.HandshakeCompleted, []⟩ :
          ServerHsEnv Unit).recvInit =
        Except.ok (PalantirMessage.ClientInitiation "PALANTIR" "dup") ∧
      "dup" ∈ [ "dup" ]) ∧
    (((serverHandshake "srv" [ "dup" ]
        (⟨Except.ok (PalantirMessage.ClientInitiation "PALANTIR" "dup"),
          Except.ok (), Except.ok PalantirMessage.HandshakeCompleted, []⟩ :
            ServerHsEnv Unit)).sent = [PalantirMessage.NameTaken] ∧
      (serverHandshake "srv" [ "dup" ]
        (⟨Except.ok (PalantirMessage.ClientInitiation "PALANTIR" "dup"),
          Except.ok (), Except.ok PalantirMessage.HandshakeCompleted, []⟩ :
            ServerHsEnv Unit)).validatorInvoked = false ∧
      (serverHandshake "srv" [ "dup" ]
        (⟨Except.ok (PalantirMessage.ClientInitiation "PALANTIR" "dup"),
          Except.ok (), Except.ok PalantirMessage.HandshakeCompleted, []⟩ :
            ServerHsEnv Unit)).result =
        Except.error (HandshakeError.NameTaken ::
          sendErrList ((⟨Except.ok (PalantirMessage.ClientInitiation "PALANTIR" "dup"),
            Except.ok (), Except.ok PalantirMessage.HandshakeCompleted, []⟩ :
              ServerHsEnv Unit).sendResults.headD none))) ∧
    peerHandshake "srv" [ "dup" ] true
        (Except.ok (PeerMessage.Initialize ChannelPurpose.Handshake) ::
          Except.ok (PeerMessage.Handshake "dup") :: [])
        (none :: none :: []) =
      ⟨[PeerMessage.Handshake "srv",
          PeerMessage.HandshakeResponse HandshakeResponse.NameTaken], [ "dup" ],
        Except.error Peer.HandshakeError.NameTaken⟩) :=
  ⟨⟨rfl, by decide⟩,
    handshake_name_taken "srv" "dup" [ "dup" ]
      ⟨Except.ok (PalantirMessage.ClientInitiation "PALANTIR" "dup"),
        Except.ok (), Except.ok PalantirMessage.HandshakeCompleted, []⟩
      rfl (by decide) [] []⟩

/-! ## Accept loop and peer table theorems -/

/-- C9 counterexample: a session whose `name` header is present but empty
(`some ""`) with an empty peer table is *not* rejected — the code only
checks for an absent header (src/lib.rs line 199), so the session reaches
`validate_session_request` and a handler task is spawned for name `""`. -/
theorem accept_loop_empty_name_not_rejected :
    headersGet [( "name", "" )] "name" = some "" ∧
    runAcceptOnce [] true (some ⟨[( "name", "" )]⟩) true true =
      (AcceptOutcome.spawned "", true) :=
  ⟨rfl, rfl⟩

/-- C9 (amended): every incoming session (passing incoming-session
validation) whose `name` header is absent or equal to an existing
peer-table key is rejected with a `forbidden` response, before
`validate_session_request` is invoked, and no connection-handler task is
spawned. -/
theorem accept_loop_rejects_missing_or_duplicate (peers : List String)
    (req : SessionRequest) (validateSessionRequest acceptOk : Bool)
    (h : headersGet req.headers "name" = none ∨
      ∃ n, headersGet req.headers "name" = some n ∧ n ∈ peers) :
    runAcceptOnce peers true (some req) validateSessionRequest acceptOk =
      (AcceptOutcome.forbidden, false) := by
  rcases h with h | ⟨n, hsome, hmem⟩
  · simp [runAcceptOnce, h]
  · simp [runAcceptOnce, hsome, hmem]

/-- C9 (amended) witness: duplicate name "a" against peer table `["a"]`. -/
theorem accept_loop_rejects_missing_or_duplicate_witness :
    (headersGet (SessionRequest.mk [( "name", "a" )]).headers "name" = none ∨
      ∃ n, headersGet (SessionRequest.mk [( "name", "a" )]).headers "name" = some n ∧
        n ∈ [ "a" ]) ∧
    runAcceptOnce [ "a" ] true (some ⟨[( "name", "a" )]⟩) true true =
      (AcceptOutcome.forbidden, false) :=
  ⟨Or.inr ⟨ "a", rfl, by decide⟩,
    accept_loop_rejects_missing_or_duplicate [ "a" ] ⟨[( "name", "a" )]⟩ true true
      (Or.inr ⟨ "a", rfl, by decide⟩)⟩

/-- C10: when the handshake-yielded name is already a peer-table key,
`new_peer` returns `Ok(())` if the stored entry's remote address equals the
new connection's and a `DuplicateName` error otherwise, and in both cases
the peer table is unchanged — the existing entry is never replaced. -/
theorem new_peer_duplicate_name (peers : List (String × Nat)) (name : String)
    (connAddr : Nat) (entry : String × Nat)
    (hfind : peers.find? (fun p => p.1 == name) = some entry) :
    newPeerInsert peers name connAddr =
      ((if entry.2 = connAddr then Except.ok ()
        else Except.error PalantirError.DuplicateName), peers) := by
  by_cases h : entry.2 = connAddr <;> simp [newPeerInsert, hfind, h]

/-- C10 witness: table `[("b", 7), ("c", 9)]`, handshake name "c", new
connection address 5. -/
theorem new_peer_duplicate_name_witness :
    [( "b", 7 ), ( "c", 9 )].find? (fun p => p.1 == "c") = some ( "c", 9 ) ∧
    newPeerInsert [( "b", 7 ), ( "c", 9 )] "c" 5 =
      ((if ( "c", 9 ).2 = 5 then Except.ok ()
        else Except.error PalantirError.DuplicateName), [( "b", 7 ), ( "c", 9 )]) :=
  ⟨by decide,
    new_peer_duplicate_name [( "b", 7 ), ( "c", 9 )] "c" 5 ( "c", 9 ) (by decide)⟩

end Palantir
